import Mathlib

/-!
Shallow embedding of the audio feature-extraction and emotion-scoring
pipeline of src/script.js (class AudioEmotionAnalyzer, second revision:
extractAudioFeatures with the 30-second window cap, calculateVariance,
calculateSpectralFeatures, calculateEmotion).

JavaScript numbers are idealised as rationals.  The sites of the source
where a division can have a zero denominator (all of them of the shape
0/0, which is NaN in JavaScript) are modelled with jsDiv, which returns
none for a zero denominator; a none value propagates through subsequent
arithmetic exactly as NaN does (Math.max, Math.min, Math.round and the
arithmetic operators all map NaN to NaN).  Math.sqrt is modelled as an
unspecified function parameter sqrt : ℚ → ℚ, since its exact value is an
irrational real the code only approximates and no property stated below
depends on it; NaN propagation through Math.sqrt is captured by mapping
over the Option.
-/

namespace SpeechAnalysis

/-- JavaScript division a / b at the 0/0 sites of the source: none models
the NaN produced when the denominator is 0. -/
def jsDiv (a b : ℚ) : Option ℚ := if b = 0 then none else some (a / b)

/-- Math.round on a finite value: round half towards positive infinity. -/
def jsRound (q : ℚ) : ℤ := ⌊q + 1/2⌋

/-- Sum of absolute amplitudes of a sample list. -/
def sumAbs (l : List ℚ) : ℚ := (l.map (fun x => |x|)).sum

/-- Sum of squared amplitudes of a sample list. -/
def sumSq (l : List ℚ) : ℚ := (l.map (fun x => x * x)).sum

/-- Number of adjacent pairs with strictly negative product, the
zero-crossing count of the loop at the zcr step of extractAudioFeatures. -/
def zcrCount : List ℚ → ℕ
  | [] => 0
  | [_] => 0
  | x :: y :: rest => (if x * y < 0 then 1 else 0) + zcrCount (y :: rest)

/-- Decoded waveform as the collaborator hands it to the analyzer: the
left-channel samples, the sample rate and the true duration in seconds. -/
structure WaveformInput where
  samples : List ℚ
  sampleRate : ℚ
  duration : ℚ

/-- Feature record built by extractAudioFeatures.  Fields that the source
computes by a division whose denominator can be 0 are Option-valued
(none models NaN). -/
structure AudioFeatures where
  durationAnalyzed : ℚ
  sampleRate : ℚ
  rms : Option ℚ
  rmsVariance : Option ℚ
  zcr : Option ℚ
  spectralCentroid : ℚ
  lowFreqRatio : Option ℚ
  highFreqRatio : Option ℚ

/-- totalSamples of extractAudioFeatures:
Math.floor(Math.min(duration, 30) * sampleRate), clamped to ℕ. -/
def windowSampleCount (w : WaveformInput) : ℕ :=
  (⌊min w.duration 30 * w.sampleRate⌋).toNat

/-- analysisData of extractAudioFeatures: channelData.slice(0, totalSamples). -/
def analysisData (w : WaveformInput) : List ℚ :=
  w.samples.take (windowSampleCount w)

/-- calculateVariance(data, mean): mean squared deviation from the given
mean; none (NaN) on an empty list, where the source divides 0 by 0. -/
def calculateVariance (data : List ℚ) (mean : ℚ) : Option ℚ :=
  jsDiv ((data.map (fun x => (x - mean) ^ 2)).sum) data.length

/-- lowFreqEnergy of calculateSpectralFeatures: summed absolute amplitude
over indices i < third, with third = Math.floor(data.length / 3). -/
def lowEnergy (d : List ℚ) : ℚ := sumAbs (d.take (d.length / 3))

/-- midFreqEnergy of calculateSpectralFeatures: indices third ≤ i < 2*third. -/
def midEnergy (d : List ℚ) : ℚ := sumAbs ((d.drop (d.length / 3)).take (d.length / 3))

/-- highFreqEnergy of calculateSpectralFeatures: indices i ≥ 2*third. -/
def highEnergy (d : List ℚ) : ℚ := sumAbs (d.drop (2 * (d.length / 3)))

/-- totalEnergy of calculateSpectralFeatures. -/
def totalEnergy (d : List ℚ) : ℚ := lowEnergy d + midEnergy d + highEnergy d

/-- Index-weighted absolute amplitude sum of the opening frame, the
weightedSum accumulator of the spectral-centroid loop. -/
def weightedAbsSum (l : List ℚ) : ℚ :=
  (l.enum.map (fun p => (p.1 : ℚ) * |p.2|)).sum

/-- spectralCentroid of calculateSpectralFeatures: amplitude-weighted
index centroid over the first min(data.length, 1024) samples, 0 when the
magnitude sum is 0 (this branch is guarded in the source). -/
def spectralCentroidOf (d : List ℚ) : ℚ :=
  let frame := d.take (min d.length 1024)
  if 0 < sumAbs frame then weightedAbsSum frame / sumAbs frame else 0

/-- extractAudioFeatures(audioBuffer): windowing to at most 30 seconds,
RMS, variance around RMS, zero-crossing rate, energy-band ratios and the
centroid proxy.  The sqrt parameter stands for Math.sqrt. -/
def extractAudioFeatures (sqrt : ℚ → ℚ) (w : WaveformInput) : AudioFeatures :=
  let d := analysisData w
  let rms : Option ℚ := (jsDiv (sumSq d) d.length).map sqrt
  { durationAnalyzed := min w.duration 30
    sampleRate := w.sampleRate
    rms := rms
    rmsVariance := do
      let r ← rms
      calculateVariance d r
    zcr := jsDiv (zcrCount d) d.length
    spectralCentroid := spectralCentroidOf d
    lowFreqRatio := jsDiv (lowEnergy d) (totalEnergy d)
    highFreqRatio := jsDiv (highEnergy d) (totalEnergy d) }

/-- Raw calm score of calculateEmotion before normalization. -/
def rawCalm (v z : ℚ) : ℚ := max 0 (100 - v * 1000 - z * 500)

/-- Raw tense score of calculateEmotion before normalization. -/
def rawTense (v z : ℚ) : ℚ := min 100 (z * 800 + v * 600)

/-- Raw angry score of calculateEmotion before normalization. -/
def rawAngry (c h : ℚ) : ℚ := min 100 (c * 50 + h * 200)

/-- Raw excited score of calculateEmotion before normalization. -/
def rawExcited (v z : ℚ) : ℚ := min 100 ((v + z) * 400)

/-- Denominator of the normalization step: the sum of the four raw scores. -/
def rawTotal (v z c h : ℚ) : ℚ := rawCalm v z + rawTense v z + rawAngry c h + rawExcited v z

/-- Raw calm score lifted to the NaN-propagating feature record. -/
def calmScore (f : AudioFeatures) : Option ℚ := do
  let v ← f.rmsVariance
  let z ← f.zcr
  pure (rawCalm v z)

/-- Raw tense score lifted to the NaN-propagating feature record. -/
def tenseScore (f : AudioFeatures) : Option ℚ := do
  let v ← f.rmsVariance
  let z ← f.zcr
  pure (rawTense v z)

/-- Raw angry score lifted to the NaN-propagating feature record. -/
def angryScore (f : AudioFeatures) : Option ℚ := do
  let h ← f.highFreqRatio
  pure (rawAngry f.spectralCentroid h)

/-- Raw excited score lifted to the NaN-propagating feature record. -/
def excitedScore (f : AudioFeatures) : Option ℚ := do
  let v ← f.rmsVariance
  let z ← f.zcr
  pure (rawExcited v z)

/-- total of the normalization step of calculateEmotion. -/
def totalScore (f : AudioFeatures) : Option ℚ := do
  let a ← calmScore f
  let b ← tenseScore f
  let c ← angryScore f
  let d ← excitedScore f
  pure (a + b + c + d)

/-- One normalized percentage: Math.round((score / total) * 100), with the
NaN of a zero total propagated as none. -/
def normPct (s t : Option ℚ) : Option ℤ := do
  let a ← s
  let b ← t
  let q ← jsDiv a b
  pure (jsRound (q * 100))

/-- Normalized calm percentage stored back into emotionScores. -/
def calmPct (f : AudioFeatures) : Option ℤ := normPct (calmScore f) (totalScore f)

/-- Normalized tense percentage stored back into emotionScores. -/
def tensePct (f : AudioFeatures) : Option ℤ := normPct (tenseScore f) (totalScore f)

/-- Normalized angry percentage stored back into emotionScores. -/
def angryPct (f : AudioFeatures) : Option ℤ := normPct (angryScore f) (totalScore f)

/-- Normalized excited percentage stored back into emotionScores. -/
def excitedPct (f : AudioFeatures) : Option ℤ := normPct (excitedScore f) (totalScore f)

/-- conflictRisk of calculateEmotion:
Math.round(Math.min(100, tense*0.4 + angry*0.6 + excited*0.2)) over the
normalized (post-round) percentages. -/
def riskScore (f : AudioFeatures) : Option ℤ := do
  let t ← tensePct f
  let a ← angryPct f
  let e ← excitedPct f
  pure (jsRound (min 100 ((t : ℚ) * (2/5) + (a : ℚ) * (3/5) + (e : ℚ) * (1/5))))

/-- Result record returned by calculateEmotion.  The emotion percentages,
the risk and the feature summary inherit NaN (none) from the features;
the timestamp is the caller-supplied wall-clock string. -/
structure EmotionResult where
  calm : Option ℤ
  tense : Option ℤ
  angry : Option ℤ
  excited : Option ℤ
  conflictRisk : Option ℤ
  duration : ℚ
  timestamp : String
  volume : Option ℤ
  variability : Option ℤ
  zeroCrossing : Option ℤ

/-- calculateEmotion(features, duration): normalized emotion percentages,
conflict risk, rounded duration and the display feature summary.  The
wall-clock timestamp of the source (new Date().toLocaleString) is an
input supplied by the caller's clock. -/
def calculateEmotion (f : AudioFeatures) (duration : ℚ) (timestamp : String) : EmotionResult :=
  { calm := calmPct f
    tense := tensePct f
    angry := angryPct f
    excited := excitedPct f
    conflictRisk := riskScore f
    duration := (jsRound (duration * 100) : ℚ) / 100
    timestamp := timestamp
    volume := f.rms.map (fun r => jsRound (r * 1000))
    variability := f.rmsVariance.map (fun v => jsRound (v * 1000))
    zeroCrossing := f.zcr.map (fun z => jsRound (z * 100)) }

/-- The analysis pipeline of analyzeAudioFile: extractAudioFeatures
followed by calculateEmotion applied to the true (uncapped) duration. -/
def analyzePipeline (sqrt : ℚ → ℚ) (w : WaveformInput) (timestamp : String) : EmotionResult :=
  calculateEmotion (extractAudioFeatures sqrt w) w.duration timestamp

/-! ### Basic lemmas about the numeric helpers -/

lemma jsDiv_of_ne_zero (a b : ℚ) (h : b ≠ 0) : jsDiv a b = some (a / b) := by
  simp [jsDiv, h]

lemma jsDiv_none_iff (a b : ℚ) : jsDiv a b = none ↔ b = 0 := by
  by_cases h : b = 0 <;> simp [jsDiv, h]

lemma jsDiv_eq_some (a b q : ℚ) (h : jsDiv a b = some q) : b ≠ 0 ∧ q = a / b := by
  by_cases hb : b = 0
  · simp [jsDiv, hb] at h
  · simp [jsDiv, hb] at h
    exact ⟨hb, h.symm⟩

lemma jsRound_nonneg (x : ℚ) (h : 0 ≤ x) : 0 ≤ jsRound x :=
  Int.floor_nonneg.mpr (by linarith)

lemma jsRound_le_of_le (x : ℚ) (n : ℤ) (h : x ≤ n) : jsRound x ≤ n := by
  have hn1 : (n : ℚ) + 1 = ((n + 1 : ℤ) : ℚ) := by norm_cast
  have hlt : ⌊x + 1/2⌋ < n + 1 := Int.floor_lt.mpr (by rw [← hn1]; linarith)
  exact Int.lt_add_one_iff.mp hlt

lemma le_jsRound_of_le (n : ℤ) (x : ℚ) (h : (n : ℚ) ≤ x) : n ≤ jsRound x :=
  Int.le_floor.mpr (by linarith)

lemma jsRound_le_half (x : ℚ) : (jsRound x : ℚ) ≤ x + 1/2 := Int.floor_le _

lemma sub_half_lt_jsRound (x : ℚ) : x - 1/2 < (jsRound x : ℚ) := by
  have h := Int.sub_one_lt_floor (x + 1/2)
  unfold jsRound
  linarith

lemma jsRound_hundred : jsRound 100 = 100 := by
  unfold jsRound
  norm_num [Int.floor_eq_iff]

lemma jsRound_min_hundred (x : ℚ) : jsRound (min 100 x) = min 100 (jsRound x) := by
  rcases le_total x 100 with h | h
  · rw [min_eq_right h, min_eq_right (jsRound_le_of_le x 100 (by exact_mod_cast h))]
  · rw [min_eq_left h, min_eq_left (le_jsRound_of_le 100 x (by exact_mod_cast h)),
      jsRound_hundred]

lemma jsRound_pct_bounds (s T : ℚ) (h0 : 0 ≤ s) (h1 : s ≤ T) (hT : 0 < T) :
    0 ≤ jsRound (s / T * 100) ∧ jsRound (s / T * 100) ≤ 100 := by
  have hd0 : 0 ≤ s / T * 100 := by positivity
  have hd1 : s / T * 100 ≤ 100 := by
    rw [div_mul_eq_mul_div, div_le_iff₀ hT]
    nlinarith
  exact ⟨jsRound_nonneg _ hd0, jsRound_le_of_le _ 100 (by exact_mod_cast hd1)⟩

lemma sumAbs_nonneg (l : List ℚ) : 0 ≤ sumAbs l := by
  refine List.sum_nonneg ?_
  intro x hx
  obtain ⟨y, _, rfl⟩ := List.mem_map.mp hx
  exact abs_nonneg y

lemma sumAbs_append (a b : List ℚ) : sumAbs (a ++ b) = sumAbs a + sumAbs b := by
  simp [sumAbs]

lemma sqDevSum_nonneg (l : List ℚ) (m : ℚ) : 0 ≤ (l.map (fun x => (x - m) ^ 2)).sum := by
  refine List.sum_nonneg ?_
  intro x hx
  obtain ⟨y, _, rfl⟩ := List.mem_map.mp hx
  positivity

lemma weightedAbsSum_nonneg (l : List ℚ) : 0 ≤ weightedAbsSum l := by
  refine List.sum_nonneg ?_
  intro x hx
  obtain ⟨p, _, rfl⟩ := List.mem_map.mp hx
  exact mul_nonneg (by positivity) (abs_nonneg _)

lemma spectralCentroidOf_nonneg (d : List ℚ) : 0 ≤ spectralCentroidOf d := by
  by_cases h : 0 < sumAbs (d.take (min d.length 1024))
  · rw [spectralCentroidOf, if_pos h]
    exact div_nonneg (weightedAbsSum_nonneg _) (le_of_lt h)
  · rw [spectralCentroidOf, if_neg h]

lemma totalEnergy_eq_sumAbs (d : List ℚ) : totalEnergy d = sumAbs d := by
  unfold totalEnergy lowEnergy midEnergy highEnergy
  have hdrop : (d.drop (d.length / 3)).drop (d.length / 3) = d.drop (2 * (d.length / 3)) := by
    rw [List.drop_drop]
    congr 1
    omega
  calc sumAbs (d.take (d.length / 3)) + sumAbs ((d.drop (d.length / 3)).take (d.length / 3)) +
        sumAbs (d.drop (2 * (d.length / 3)))
      = sumAbs (d.take (d.length / 3)) + (sumAbs ((d.drop (d.length / 3)).take (d.length / 3)) +
        sumAbs ((d.drop (d.length / 3)).drop (d.length / 3))) := by rw [hdrop]; ring
    _ = sumAbs (d.take (d.length / 3)) + sumAbs (d.drop (d.length / 3)) := by
        rw [← sumAbs_append, List.take_append_drop]
    _ = sumAbs d := by rw [← sumAbs_append, List.take_append_drop]

lemma lowEnergy_le_totalEnergy (d : List ℚ) : lowEnergy d ≤ totalEnergy d := by
  have h1 := sumAbs_nonneg ((d.drop (d.length / 3)).take (d.length / 3))
  have h2 := sumAbs_nonneg (d.drop (2 * (d.length / 3)))
  unfold totalEnergy midEnergy highEnergy
  linarith

lemma highEnergy_le_totalEnergy (d : List ℚ) : highEnergy d ≤ totalEnergy d := by
  have h1 := sumAbs_nonneg (d.take (d.length / 3))
  have h2 := sumAbs_nonneg ((d.drop (d.length / 3)).take (d.length / 3))
  unfold totalEnergy lowEnergy midEnergy
  linarith

lemma totalEnergy_nonneg (d : List ℚ) : 0 ≤ totalEnergy d := by
  rw [totalEnergy_eq_sumAbs]
  exact sumAbs_nonneg d

theorem zcrCount_le (l : List ℚ) : zcrCount l ≤ l.length - 1 := by
  match l with
  | [] => simp [zcrCount]
  | [x] => simp [zcrCount]
  | x :: y :: rest =>
    have ih := zcrCount_le (y :: rest)
    simp only [zcrCount, List.length_cons] at ih ⊢
    split <;> omega

/-! ### Field equations for extractAudioFeatures -/

lemma extract_durationAnalyzed (sqrt : ℚ → ℚ) (w : WaveformInput) :
    (extractAudioFeatures sqrt w).durationAnalyzed = min w.duration 30 := rfl

lemma extract_spectralCentroid (sqrt : ℚ → ℚ) (w : WaveformInput) :
    (extractAudioFeatures sqrt w).spectralCentroid = spectralCentroidOf (analysisData w) := rfl

lemma extract_zcr (sqrt : ℚ → ℚ) (w : WaveformInput) :
    (extractAudioFeatures sqrt w).zcr =
      jsDiv (zcrCount (analysisData w)) (analysisData w).length := rfl

lemma extract_lowFreqRatio (sqrt : ℚ → ℚ) (w : WaveformInput) :
    (extractAudioFeatures sqrt w).lowFreqRatio =
      jsDiv (lowEnergy (analysisData w)) (totalEnergy (analysisData w)) := rfl

lemma extract_highFreqRatio (sqrt : ℚ → ℚ) (w : WaveformInput) :
    (extractAudioFeatures sqrt w).highFreqRatio =
      jsDiv (highEnergy (analysisData w)) (totalEnergy (analysisData w)) := rfl

lemma length_cast_ne_zero (l : List ℚ) (h : l ≠ []) : ((l.length : ℚ)) ≠ 0 := by
  have : 0 < l.length := List.length_pos.mpr h
  exact_mod_cast this.ne'

lemma extract_rms_some (sqrt : ℚ → ℚ) (w : WaveformInput) (h : analysisData w ≠ []) :
    (extractAudioFeatures sqrt w).rms =
      some (sqrt (sumSq (analysisData w) / (analysisData w).length)) := by
  simp [extractAudioFeatures, jsDiv_of_ne_zero _ _ (length_cast_ne_zero _ h)]

lemma extract_rmsVariance_some (sqrt : ℚ → ℚ) (w : WaveformInput) (h : analysisData w ≠ []) :
    (extractAudioFeatures sqrt w).rmsVariance =
      some (((analysisData w).map
        (fun x => (x - sqrt (sumSq (analysisData w) / ((analysisData w).length : ℚ))) ^ 2)).sum /
          ((analysisData w).length : ℚ)) := by
  simp [extractAudioFeatures, calculateVariance,
    jsDiv_of_ne_zero _ _ (length_cast_ne_zero _ h)]

/-! ### Bounds on the raw emotion scores -/

lemma rawCalm_nonneg (v z : ℚ) : 0 ≤ rawCalm v z := le_max_left 0 _

lemma rawTense_nonneg (v z : ℚ) (hv : 0 ≤ v) (hz : 0 ≤ z) : 0 ≤ rawTense v z :=
  le_min (by norm_num) (by positivity)

lemma rawAngry_nonneg (c h : ℚ) (hc : 0 ≤ c) (hh : 0 ≤ h) : 0 ≤ rawAngry c h :=
  le_min (by norm_num) (by positivity)

lemma rawExcited_nonneg (v z : ℚ) (hv : 0 ≤ v) (hz : 0 ≤ z) : 0 ≤ rawExcited v z :=
  le_min (by norm_num) (by positivity)

lemma rawTotal_pos (v z c h : ℚ) (hv : 0 ≤ v) (hz : 0 ≤ z) (hc : 0 ≤ c) (hh : 0 ≤ h) :
    0 < rawTotal v z c h := by
  have h1 := rawAngry_nonneg c h hc hh
  have h2 := rawExcited_nonneg v z hv hz
  by_cases hcase : 100 - v * 1000 - z * 500 ≤ 0
  · have htense : 60 ≤ rawTense v z := by
      refine le_min (by norm_num) ?_
      linarith
    have hcalm := rawCalm_nonneg v z
    unfold rawTotal
    linarith
  · have hcalm : 0 < rawCalm v z := lt_max_of_lt_right (by linarith)
    have htense := rawTense_nonneg v z hv hz
    unfold rawTotal
    linarith

/-! ### Concrete inputs used by the claim theorems and witnesses -/

/-- Four alternating full-scale samples, one second at 4 Hz: the literal
zero-crossing test vector of the spec. -/
def wAlternating : WaveformInput := ⟨[1, -1, 1, -1], 4, 1⟩

/-- An all-zero (silent) four-sample window. -/
def wSilentFour : WaveformInput := ⟨[0, 0, 0, 0], 4, 1⟩

/-- An all-zero (silent) two-sample window. -/
def wSilentPair : WaveformInput := ⟨[0, 0], 2, 1⟩

/-- An all-zero (silent) three-sample window. -/
def wSilentThree : WaveformInput := ⟨[0, 0, 0], 3, 1⟩

/-- An empty sample buffer. -/
def wEmptyBuf : WaveformInput := ⟨[], 8000, 1⟩

/-- A two-sample window with one sign change. -/
def wPair : WaveformInput := ⟨[1, -1], 2, 1⟩

/-- A 120-second waveform at 44100 Hz (all-zero samples; only its length
matters for the windowing claims). -/
def wLong : WaveformInput := ⟨List.replicate 5292000 0, 44100, 120⟩

/-- The feature record extractAudioFeatures produces on wAlternating with
an exact square root: rms 1, variance 2, zcr 3/4, centroid 3/2, energy
ratios 1/4 and 1/2. -/
def exFeatures : AudioFeatures := ⟨1, 4, some 1, some 2, some (3/4), 3/2, some (1/4), some (1/2)⟩

lemma analysisData_wAlternating : analysisData wAlternating = [1, -1, 1, -1] := by
  norm_num [analysisData, windowSampleCount, wAlternating]

/-! ### Claim theorems -/

/-- C1, counterexample: on the all-zero four-sample window the energy
banding of extractAudioFeatures divides 0 by 0, so both ratios are NaN
(none), not 0 as the claim states. -/
theorem c1_counterexample :
    (extractAudioFeatures (fun x => x) wSilentFour).lowFreqRatio = none ∧
    (extractAudioFeatures (fun x => x) wSilentFour).highFreqRatio = none ∧
    (extractAudioFeatures (fun x => x) wSilentFour).lowFreqRatio ≠ some 0 ∧
    (extractAudioFeatures (fun x => x) wSilentFour).highFreqRatio ≠ some 0 := by
  have hd : analysisData wSilentFour = [0, 0, 0, 0] := by
    norm_num [analysisData, windowSampleCount, wSilentFour]
  have hE : totalEnergy (analysisData wSilentFour) = 0 := by
    rw [hd]
    norm_num [totalEnergy, lowEnergy, midEnergy, highEnergy, sumAbs]
  simp [extract_lowFreqRatio, extract_highFreqRatio, hE, jsDiv]

/-- C1, amended: for every analysis window whose total absolute-amplitude
energy is 0, the energy-banding step of extractAudioFeatures divides by
zero and both frequency ratios are undefined (NaN, modelled as none); the
source has no guard and the ratios are never defined as 0. -/
theorem c1_silent_window_ratios_nan (sqrt : ℚ → ℚ) (w : WaveformInput)
    (hE : totalEnergy (analysisData w) = 0) :
    (extractAudioFeatures sqrt w).lowFreqRatio = none ∧
    (extractAudioFeatures sqrt w).highFreqRatio = none := by
  rw [extract_lowFreqRatio, extract_highFreqRatio, hE]
  exact ⟨(jsDiv_none_iff _ _).mpr rfl, (jsDiv_none_iff _ _).mpr rfl⟩

/-- C1, witness: the silent two-sample window has zero total energy and
its low-frequency ratio is undefined. -/
theorem c1_witness :
    totalEnergy (analysisData wSilentPair) = 0 ∧
    (extractAudioFeatures (fun x => x) wSilentPair).lowFreqRatio = none := by
  have hd : analysisData wSilentPair = [0, 0] := by
    norm_num [analysisData, windowSampleCount, wSilentPair]
  have hE : totalEnergy (analysisData wSilentPair) = 0 := by
    rw [hd]
    norm_num [totalEnergy, lowEnergy, midEnergy, highEnergy, sumAbs]
  exact ⟨hE, (c1_silent_window_ratios_nan (fun x => x) wSilentPair hE).1⟩

/-- C2, counterexample: on an empty sample buffer extractAudioFeatures
does not fail with an EmptyInput error; it silently returns an
AudioFeatures record whose rms, rmsVariance and zcr are NaN (none) while
the metadata fields are populated. -/
theorem c2_counterexample :
    (extractAudioFeatures (fun x => x) wEmptyBuf).rms = none ∧
    (extractAudioFeatures (fun x => x) wEmptyBuf).rmsVariance = none ∧
    (extractAudioFeatures (fun x => x) wEmptyBuf).zcr = none ∧
    (extractAudioFeatures (fun x => x) wEmptyBuf).durationAnalyzed = 1 ∧
    (extractAudioFeatures (fun x => x) wEmptyBuf).sampleRate = 8000 := by
  have hd : analysisData wEmptyBuf = [] := by
    norm_num [analysisData, windowSampleCount, wEmptyBuf]
  refine ⟨?_, ?_, ?_, ?_, ?_⟩
  · simp [extractAudioFeatures, hd, jsDiv, sumSq]
  · simp [extractAudioFeatures, calculateVariance, hd, jsDiv, sumSq]
  · simp [extractAudioFeatures, hd, jsDiv, zcrCount]
  · norm_num [extract_durationAnalyzed, wEmptyBuf]
  · rfl

/-- C2, amended: extractAudioFeatures never raises; it is a total
function returning an AudioFeatures record on every input, and its rms,
rmsVariance and zcr fields are NaN (none) exactly when the analysis
window is empty (in particular when the sample buffer is empty). -/
theorem c2_extract_never_fails (sqrt : ℚ → ℚ) (w : WaveformInput) :
    ((extractAudioFeatures sqrt w).rms = none ↔ analysisData w = []) ∧
    ((extractAudioFeatures sqrt w).rmsVariance = none ↔ analysisData w = []) ∧
    ((extractAudioFeatures sqrt w).zcr = none ↔ analysisData w = []) := by
  by_cases h : analysisData w = []
  · simp [extractAudioFeatures, calculateVariance, h, jsDiv, sumSq, zcrCount]
  · refine ⟨?_, ?_, ?_⟩
    · rw [extract_rms_some sqrt w h]
      simp [h]
    · rw [extract_rmsVariance_some sqrt w h]
      simp [h]
    · rw [extract_zcr, jsDiv_of_ne_zero _ _ (length_cast_ne_zero _ h)]
      simp [h]

/-- C4: the analysis window is the prefix of length
min(len(samples), floor(min(duration, 30) * sampleRate)); for a
120-second waveform at 44100 Hz the analyzed count is 30 * 44100 and the
analyzed duration is 30 seconds. -/
theorem c4_window_cap (sqrt : ℚ → ℚ) (w : WaveformInput)
    (h : 0 ≤ ⌊min w.duration 30 * w.sampleRate⌋) :
    ((analysisData w).length : ℤ) =
      min ((w.samples.length : ℤ)) ⌊min w.duration 30 * w.sampleRate⌋ ∧
    (w.duration = 120 → w.sampleRate = 44100 → w.samples.length = 120 * 44100 →
      (analysisData w).length = 30 * 44100 ∧
      (extractAudioFeatures sqrt w).durationAnalyzed = 30) := by
  constructor
  · unfold analysisData windowSampleCount
    rw [List.length_take, Nat.cast_min, Int.toNat_of_nonneg h, min_comm]
  · intro h1 h2 h3
    refine ⟨?_, ?_⟩
    · unfold analysisData windowSampleCount
      rw [List.length_take, h1, h2, h3]
      have hfl : ⌊min (120 : ℚ) 30 * 44100⌋ = ((1323000 : ℕ) : ℤ) := by norm_num
      rw [hfl, Int.toNat_natCast]
      norm_num
    · rw [extract_durationAnalyzed, h1]
      norm_num

/-- C4, witness: the 120-second 44100 Hz waveform is analyzed over
exactly 30 * 44100 samples and reports 30 analyzed seconds. -/
theorem c4_witness :
    (analysisData wLong).length = 30 * 44100 ∧
    (extractAudioFeatures (fun x => x) wLong).durationAnalyzed = 30 :=
  (c4_window_cap (fun x => x) wLong (by norm_num [wLong])).2 rfl rfl (by norm_num [wLong])

/-- C5, counterexample: on the literal four-sample input [1, -1, 1, -1]
the zcr returned by extractAudioFeatures is not 1.0. -/
theorem c5_counterexample :
    (extractAudioFeatures (fun x => x) wAlternating).zcr ≠ some 1 := by
  rw [extract_zcr, analysisData_wAlternating]
  norm_num [zcrCount, jsDiv]

/-- C5, amended: on the literal four-sample input [1, -1, 1, -1] the
window has 4 samples and 3 sign changes, and extractAudioFeatures
returns zcr = 3/4 = 0.75 (the count divided by windowSamples). -/
theorem c5_zcr_three_quarters :
    (extractAudioFeatures (fun x => x) wAlternating).zcr = some (3/4) ∧
    zcrCount (analysisData wAlternating) = 3 ∧
    (analysisData wAlternating).length = 4 := by
  refine ⟨?_, ?_, ?_⟩
  · rw [extract_zcr, analysisData_wAlternating]
    norm_num [zcrCount, jsDiv]
  · rw [analysisData_wAlternating]
    norm_num [zcrCount]
  · rw [analysisData_wAlternating]
    rfl

/-! ### Equations for the emotion-score layer -/

lemma calmScore_some (f : AudioFeatures) (v z : ℚ)
    (hv : f.rmsVariance = some v) (hz : f.zcr = some z) :
    calmScore f = some (rawCalm v z) := by
  simp [calmScore, hv, hz]

lemma tenseScore_some (f : AudioFeatures) (v z : ℚ)
    (hv : f.rmsVariance = some v) (hz : f.zcr = some z) :
    tenseScore f = some (rawTense v z) := by
  simp [tenseScore, hv, hz]

lemma angryScore_some (f : AudioFeatures) (h : ℚ) (hh : f.highFreqRatio = some h) :
    angryScore f = some (rawAngry f.spectralCentroid h) := by
  simp [angryScore, hh]

lemma excitedScore_some (f : AudioFeatures) (v z : ℚ)
    (hv : f.rmsVariance = some v) (hz : f.zcr = some z) :
    excitedScore f = some (rawExcited v z) := by
  simp [excitedScore, hv, hz]

lemma totalScore_some (f : AudioFeatures) (v z h : ℚ)
    (hv : f.rmsVariance = some v) (hz : f.zcr = some z) (hh : f.highFreqRatio = some h) :
    totalScore f = some (rawTotal v z f.spectralCentroid h) := by
  simp [totalScore, calmScore_some f v z hv hz, tenseScore_some f v z hv hz,
    angryScore_some f h hh, excitedScore_some f v z hv hz, rawTotal]

lemma normPct_some (s T : ℚ) (hT : T ≠ 0) :
    normPct (some s) (some T) = some (jsRound (s / T * 100)) := by
  simp [normPct, jsDiv_of_ne_zero _ _ hT]

lemma calmPct_some (f : AudioFeatures) (v z h : ℚ)
    (hv : f.rmsVariance = some v) (hz : f.zcr = some z) (hh : f.highFreqRatio = some h)
    (hT : rawTotal v z f.spectralCentroid h ≠ 0) :
    calmPct f = some (jsRound (rawCalm v z / rawTotal v z f.spectralCentroid h * 100)) := by
  rw [calmPct, calmScore_some f v z hv hz, totalScore_some f v z h hv hz hh, normPct_some _ _ hT]

lemma tensePct_some (f : AudioFeatures) (v z h : ℚ)
    (hv : f.rmsVariance = some v) (hz : f.zcr = some z) (hh : f.highFreqRatio = some h)
    (hT : rawTotal v z f.spectralCentroid h ≠ 0) :
    tensePct f = some (jsRound (rawTense v z / rawTotal v z f.spectralCentroid h * 100)) := by
  rw [tensePct, tenseScore_some f v z hv hz, totalScore_some f v z h hv hz hh, normPct_some _ _ hT]

lemma angryPct_some (f : AudioFeatures) (v z h : ℚ)
    (hv : f.rmsVariance = some v) (hz : f.zcr = some z) (hh : f.highFreqRatio = some h)
    (hT : rawTotal v z f.spectralCentroid h ≠ 0) :
    angryPct f =
      some (jsRound (rawAngry f.spectralCentroid h / rawTotal v z f.spectralCentroid h * 100)) := by
  rw [angryPct, angryScore_some f h hh, totalScore_some f v z h hv hz hh, normPct_some _ _ hT]

lemma excitedPct_some (f : AudioFeatures) (v z h : ℚ)
    (hv : f.rmsVariance = some v) (hz : f.zcr = some z) (hh : f.highFreqRatio = some h)
    (hT : rawTotal v z f.spectralCentroid h ≠ 0) :
    excitedPct f = some (jsRound (rawExcited v z / rawTotal v z f.spectralCentroid h * 100)) := by
  rw [excitedPct, excitedScore_some f v z hv hz, totalScore_some f v z h hv hz hh,
    normPct_some _ _ hT]

lemma riskScore_some (f : AudioFeatures) (t a e : ℤ)
    (ht : tensePct f = some t) (ha : angryPct f = some a) (he : excitedPct f = some e) :
    riskScore f =
      some (jsRound (min 100 ((t : ℚ) * (2/5) + (a : ℚ) * (3/5) + (e : ℚ) * (1/5)))) := by
  simp [riskScore, ht, ha, he]

lemma lowEnergy_nonneg (d : List ℚ) : 0 ≤ lowEnergy d := sumAbs_nonneg _

lemma highEnergy_nonneg (d : List ℚ) : 0 ≤ highEnergy d := sumAbs_nonneg _

/-- Bounds on all normalized percentages and the conflict risk, for any
feature record with defined, non-negative fields. -/
lemma pct_risk_bounds (f : AudioFeatures) (v z h : ℚ)
    (hv : f.rmsVariance = some v) (hz : f.zcr = some z) (hh : f.highFreqRatio = some h)
    (h0v : 0 ≤ v) (h0z : 0 ≤ z) (h0c : 0 ≤ f.spectralCentroid) (h0h : 0 ≤ h) :
    (∃ a, calmPct f = some a ∧ 0 ≤ a ∧ a ≤ 100) ∧
    (∃ b, tensePct f = some b ∧ 0 ≤ b ∧ b ≤ 100) ∧
    (∃ c, angryPct f = some c ∧ 0 ≤ c ∧ c ≤ 100) ∧
    (∃ e, excitedPct f = some e ∧ 0 ≤ e ∧ e ≤ 100) ∧
    (∃ k, riskScore f = some k ∧ 0 ≤ k ∧ k ≤ 100) := by
  have hT := rawTotal_pos v z f.spectralCentroid h h0v h0z h0c h0h
  have hTne : rawTotal v z f.spectralCentroid h ≠ 0 := ne_of_gt hT
  have hn1 := rawCalm_nonneg v z
  have hn2 := rawTense_nonneg v z h0v h0z
  have hn3 := rawAngry_nonneg f.spectralCentroid h h0c h0h
  have hn4 := rawExcited_nonneg v z h0v h0z
  have hle1 : rawCalm v z ≤ rawTotal v z f.spectralCentroid h := by
    unfold rawTotal
    linarith
  have hle2 : rawTense v z ≤ rawTotal v z f.spectralCentroid h := by
    unfold rawTotal
    linarith
  have hle3 : rawAngry f.spectralCentroid h ≤ rawTotal v z f.spectralCentroid h := by
    unfold rawTotal
    linarith
  have hle4 : rawExcited v z ≤ rawTotal v z f.spectralCentroid h := by
    unfold rawTotal
    linarith
  have hb1 := jsRound_pct_bounds _ _ hn1 hle1 hT
  have hb2 := jsRound_pct_bounds _ _ hn2 hle2 hT
  have hb3 := jsRound_pct_bounds _ _ hn3 hle3 hT
  have hb4 := jsRound_pct_bounds _ _ hn4 hle4 hT
  have h2 := tensePct_some f v z h hv hz hh hTne
  have h3 := angryPct_some f v z h hv hz hh hTne
  have h4 := excitedPct_some f v z h hv hz hh hTne
  have hrisk := riskScore_some f _ _ _ h2 h3 h4
  have ht0 : (0 : ℚ) ≤ (jsRound (rawTense v z / rawTotal v z f.spectralCentroid h * 100) : ℚ) := by
    exact_mod_cast hb2.1
  have ha0 : (0 : ℚ) ≤
      (jsRound (rawAngry f.spectralCentroid h / rawTotal v z f.spectralCentroid h * 100) : ℚ) := by
    exact_mod_cast hb3.1
  have he0 : (0 : ℚ) ≤
      (jsRound (rawExcited v z / rawTotal v z f.spectralCentroid h * 100) : ℚ) := by
    exact_mod_cast hb4.1
  have hX0 : 0 ≤ (jsRound (rawTense v z / rawTotal v z f.spectralCentroid h * 100) : ℚ) * (2/5) +
      (jsRound (rawAngry f.spectralCentroid h / rawTotal v z f.spectralCentroid h * 100) : ℚ) *
        (3/5) +
      (jsRound (rawExcited v z / rawTotal v z f.spectralCentroid h * 100) : ℚ) * (1/5) := by
    linarith
  refine ⟨⟨_, calmPct_some f v z h hv hz hh hTne, hb1.1, hb1.2⟩, ⟨_, h2, hb2.1, hb2.2⟩,
    ⟨_, h3, hb3.1, hb3.2⟩, ⟨_, h4, hb4.1, hb4.2⟩, ⟨_, hrisk, ?_, ?_⟩⟩
  · exact jsRound_nonneg _ (le_min (by norm_num) hX0)
  · exact jsRound_le_of_le _ 100 (by exact_mod_cast min_le_left (100 : ℚ) _)

/-- C3, counterexample: on a silent (all-zero) three-sample window the
low-frequency ratio is NaN rather than a value in [0, 1], and the
normalized calm percentage and the conflict risk are NaN rather than
values in [0, 100]. -/
theorem c3_counterexample :
    (extractAudioFeatures (fun x => x) wSilentThree).lowFreqRatio = none ∧
    (analyzePipeline (fun x => x) wSilentThree "t").calm = none ∧
    (analyzePipeline (fun x => x) wSilentThree "t").conflictRisk = none := by
  have hd : analysisData wSilentThree = [0, 0, 0] := by
    norm_num [analysisData, windowSampleCount, wSilentThree]
  have hE : totalEnergy (analysisData wSilentThree) = 0 := by
    rw [hd]
    norm_num [totalEnergy, lowEnergy, midEnergy, highEnergy, sumAbs]
  have hhigh : (extractAudioFeatures (fun x => x) wSilentThree).highFreqRatio = none := by
    rw [extract_highFreqRatio, hE]
    exact (jsDiv_none_iff _ _).mpr rfl
  refine ⟨?_, ?_, ?_⟩
  · rw [extract_lowFreqRatio, hE]
    exact (jsDiv_none_iff _ _).mpr rfl
  · simp [analyzePipeline, calculateEmotion, calmPct, normPct, totalScore, angryScore, hhigh]
  · simp [analyzePipeline, calculateEmotion, riskScore, tensePct, normPct, totalScore,
      angryScore, hhigh]

/-- C3, amended: for every waveform whose analysis window has strictly
positive total absolute amplitude, zcr and both frequency ratios are
defined and lie in [0, 1], and the four normalized emotion percentages
and the conflict risk are defined and lie in [0, 100]. -/
theorem c3_bounds_for_positive_energy (sqrt : ℚ → ℚ) (w : WaveformInput) (ts : String)
    (hE : 0 < totalEnergy (analysisData w)) :
    (∃ z, (extractAudioFeatures sqrt w).zcr = some z ∧ 0 ≤ z ∧ z ≤ 1) ∧
    (∃ lo, (extractAudioFeatures sqrt w).lowFreqRatio = some lo ∧ 0 ≤ lo ∧ lo ≤ 1) ∧
    (∃ hi, (extractAudioFeatures sqrt w).highFreqRatio = some hi ∧ 0 ≤ hi ∧ hi ≤ 1) ∧
    (∃ a, (analyzePipeline sqrt w ts).calm = some a ∧ 0 ≤ a ∧ a ≤ 100) ∧
    (∃ b, (analyzePipeline sqrt w ts).tense = some b ∧ 0 ≤ b ∧ b ≤ 100) ∧
    (∃ c, (analyzePipeline sqrt w ts).angry = some c ∧ 0 ≤ c ∧ c ≤ 100) ∧
    (∃ e, (analyzePipeline sqrt w ts).excited = some e ∧ 0 ≤ e ∧ e ≤ 100) ∧
    (∃ k, (analyzePipeline sqrt w ts).conflictRisk = some k ∧ 0 ≤ k ∧ k ≤ 100) := by
  have hne : analysisData w ≠ [] := by
    intro h0
    rw [h0] at hE
    norm_num [totalEnergy, lowEnergy, midEnergy, highEnergy, sumAbs] at hE
  have hlen : 0 < (analysisData w).length := List.length_pos.mpr hne
  have hlenQ : (0 : ℚ) < ((analysisData w).length : ℚ) := by exact_mod_cast hlen
  have hEne : totalEnergy (analysisData w) ≠ 0 := ne_of_gt hE
  have hz : (extractAudioFeatures sqrt w).zcr =
      some ((zcrCount (analysisData w) : ℚ) / ((analysisData w).length : ℚ)) := by
    rw [extract_zcr, jsDiv_of_ne_zero _ _ (length_cast_ne_zero _ hne)]
  have hz0 : 0 ≤ (zcrCount (analysisData w) : ℚ) / ((analysisData w).length : ℚ) := by positivity
  have hz1 : (zcrCount (analysisData w) : ℚ) / ((analysisData w).length : ℚ) ≤ 1 := by
    rw [div_le_one hlenQ]
    have hcle : zcrCount (analysisData w) ≤ (analysisData w).length :=
      le_trans (zcrCount_le _) (Nat.sub_le _ _)
    exact_mod_cast hcle
  have hlo : (extractAudioFeatures sqrt w).lowFreqRatio =
      some (lowEnergy (analysisData w) / totalEnergy (analysisData w)) := by
    rw [extract_lowFreqRatio, jsDiv_of_ne_zero _ _ hEne]
  have hlo0 : 0 ≤ lowEnergy (analysisData w) / totalEnergy (analysisData w) :=
    div_nonneg (lowEnergy_nonneg _) (le_of_lt hE)
  have hlo1 : lowEnergy (analysisData w) / totalEnergy (analysisData w) ≤ 1 := by
    rw [div_le_one hE]
    exact lowEnergy_le_totalEnergy _
  have hhi : (extractAudioFeatures sqrt w).highFreqRatio =
      some (highEnergy (analysisData w) / totalEnergy (analysisData w)) := by
    rw [extract_highFreqRatio, jsDiv_of_ne_zero _ _ hEne]
  have hhi0 : 0 ≤ highEnergy (analysisData w) / totalEnergy (analysisData w) :=
    div_nonneg (highEnergy_nonneg _) (le_of_lt hE)
  have hhi1 : highEnergy (analysisData w) / totalEnergy (analysisData w) ≤ 1 := by
    rw [div_le_one hE]
    exact highEnergy_le_totalEnergy _
  have hv := extract_rmsVariance_some sqrt w hne
  have h0v : 0 ≤ ((analysisData w).map
      (fun x => (x - sqrt (sumSq (analysisData w) / ((analysisData w).length : ℚ))) ^ 2)).sum /
        ((analysisData w).length : ℚ) :=
    div_nonneg (sqDevSum_nonneg _ _) (le_of_lt hlenQ)
  have h0c : 0 ≤ (extractAudioFeatures sqrt w).spectralCentroid := by
    rw [extract_spectralCentroid]
    exact spectralCentroidOf_nonneg _
  have main := pct_risk_bounds (extractAudioFeatures sqrt w) _ _ _ hv hz hhi h0v hz0 h0c hhi0
  exact ⟨⟨_, hz, hz0, hz1⟩, ⟨_, hlo, hlo0, hlo1⟩, ⟨_, hhi, hhi0, hhi1⟩, main.1, main.2.1,
    main.2.2.1, main.2.2.2.1, main.2.2.2.2⟩

/-- C3, witness: the alternating four-sample window has positive energy,
and the claimed bounds hold there for zcr and the conflict risk. -/
theorem c3_witness :
    0 < totalEnergy (analysisData wAlternating) ∧
    (∃ z, (extractAudioFeatures (fun x => x) wAlternating).zcr = some z ∧ 0 ≤ z ∧ z ≤ 1) ∧
    (∃ k, (analyzePipeline (fun x => x) wAlternating "t").conflictRisk = some k ∧
      0 ≤ k ∧ k ≤ 100) := by
  have hE : 0 < totalEnergy (analysisData wAlternating) := by
    rw [analysisData_wAlternating]
    norm_num [totalEnergy, lowEnergy, midEnergy, highEnergy, sumAbs]
  have h := c3_bounds_for_positive_energy (fun x => x) wAlternating "t" hE
  exact ⟨hE, h.1, h.2.2.2.2.2.2.2⟩

/-- C6: whenever the raw-score total is strictly positive, the four
rounded normalized percentages are defined and their sum lies in
[98, 102]; moreover on a concrete feature record the sum is 99, so the
rounded integers are not renormalized to sum exactly to 100. -/
theorem c6_sum_near_hundred :
    (∀ (f : AudioFeatures) (v z h : ℚ), f.rmsVariance = some v → f.zcr = some z →
      f.highFreqRatio = some h → 0 < rawTotal v z f.spectralCentroid h →
      ∃ a b c e : ℤ, calmPct f = some a ∧ tensePct f = some b ∧ angryPct f = some c ∧
        excitedPct f = some e ∧ 98 ≤ a + b + c + e ∧ a + b + c + e ≤ 102) ∧
    (∃ a b c e : ℤ, calmPct exFeatures = some a ∧ tensePct exFeatures = some b ∧
      angryPct exFeatures = some c ∧ excitedPct exFeatures = some e ∧ a + b + c + e ≠ 100) := by
  constructor
  · intro f v z h hv hz hh hT
    have hTne : rawTotal v z f.spectralCentroid h ≠ 0 := ne_of_gt hT
    refine ⟨_, _, _, _, calmPct_some f v z h hv hz hh hTne, tensePct_some f v z h hv hz hh hTne,
      angryPct_some f v z h hv hz hh hTne, excitedPct_some f v z h hv hz hh hTne, ?_, ?_⟩
    all_goals
      have hsplit : rawCalm v z + rawTense v z + rawAngry f.spectralCentroid h +
          rawExcited v z = rawTotal v z f.spectralCentroid h := rfl
      have hsum : rawCalm v z / rawTotal v z f.spectralCentroid h * 100 +
          rawTense v z / rawTotal v z f.spectralCentroid h * 100 +
          rawAngry f.spectralCentroid h / rawTotal v z f.spectralCentroid h * 100 +
          rawExcited v z / rawTotal v z f.spectralCentroid h * 100 = 100 := by
        field_simp
        linarith
      have hu1 := jsRound_le_half (rawCalm v z / rawTotal v z f.spectralCentroid h * 100)
      have hu2 := jsRound_le_half (rawTense v z / rawTotal v z f.spectralCentroid h * 100)
      have hu3 :=
        jsRound_le_half (rawAngry f.spectralCentroid h / rawTotal v z f.spectralCentroid h * 100)
      have hu4 := jsRound_le_half (rawExcited v z / rawTotal v z f.spectralCentroid h * 100)
      have hl1 := sub_half_lt_jsRound (rawCalm v z / rawTotal v z f.spectralCentroid h * 100)
      have hl2 := sub_half_lt_jsRound (rawTense v z / rawTotal v z f.spectralCentroid h * 100)
      have hl3 :=
        sub_half_lt_jsRound (rawAngry f.spectralCentroid h / rawTotal v z f.spectralCentroid h * 100)
      have hl4 := sub_half_lt_jsRound (rawExcited v z / rawTotal v z f.spectralCentroid h * 100)
    · have h98 : (98 : ℚ) <
          ((jsRound (rawCalm v z / rawTotal v z f.spectralCentroid h * 100) +
            jsRound (rawTense v z / rawTotal v z f.spectralCentroid h * 100) +
            jsRound (rawAngry f.spectralCentroid h / rawTotal v z f.spectralCentroid h * 100) +
            jsRound (rawExcited v z / rawTotal v z f.spectralCentroid h * 100) : ℤ) : ℚ) := by
        push_cast
        linarith
      have h98i : (98 : ℤ) <
          jsRound (rawCalm v z / rawTotal v z f.spectralCentroid h * 100) +
          jsRound (rawTense v z / rawTotal v z f.spectralCentroid h * 100) +
          jsRound (rawAngry f.spectralCentroid h / rawTotal v z f.spectralCentroid h * 100) +
          jsRound (rawExcited v z / rawTotal v z f.spectralCentroid h * 100) := by
        exact_mod_cast h98
      omega
    · have h102 : ((jsRound (rawCalm v z / rawTotal v z f.spectralCentroid h * 100) +
          jsRound (rawTense v z / rawTotal v z f.spectralCentroid h * 100) +
          jsRound (rawAngry f.spectralCentroid h / rawTotal v z f.spectralCentroid h * 100) +
          jsRound (rawExcited v z / rawTotal v z f.spectralCentroid h * 100) : ℤ) : ℚ) ≤ 102 := by
        push_cast
        linarith
      exact_mod_cast h102
  · refine ⟨0, 33, 33, 33, ?_, ?_, ?_, ?_, by norm_num⟩ <;>
      norm_num [calmPct, tensePct, angryPct, excitedPct, normPct, calmScore, tenseScore,
        angryScore, excitedScore, totalScore, exFeatures, jsDiv, rawCalm, rawTense, rawAngry,
        rawExcited, jsRound, Int.floor_eq_iff]

/-- C6, witness: the concrete feature record of the alternating window
has positive raw total and its rounded percentages sum into [98, 102]. -/
theorem c6_witness :
    0 < rawTotal 2 (3/4) exFeatures.spectralCentroid (1/2) ∧
    (∃ a b c e : ℤ, calmPct exFeatures = some a ∧ tensePct exFeatures = some b ∧
      angryPct exFeatures = some c ∧ excitedPct exFeatures = some e ∧
      98 ≤ a + b + c + e ∧ a + b + c + e ≤ 102) := by
  have hT : 0 < rawTotal 2 (3/4) exFeatures.spectralCentroid (1/2) := by
    norm_num [rawTotal, rawCalm, rawTense, rawAngry, rawExcited, exFeatures]
  exact ⟨hT, c6_sum_near_hundred.1 exFeatures 2 (3/4) (1/2) rfl rfl rfl hT⟩

/-- C7: for every feature record with defined fields and non-zero raw
total, the conflict risk equals min(100, round(tense*0.4 + angry*0.6 +
excited*0.2)) computed from the normalized post-rounding percentages;
the source's round(min(...)) agrees with the claim's min(100, round(...))
because rounding is monotone and fixes 100. -/
theorem c7_conflict_risk_formula (f : AudioFeatures) (d : ℚ) (ts : String) (v z h : ℚ)
    (hv : f.rmsVariance = some v) (hz : f.zcr = some z) (hh : f.highFreqRatio = some h)
    (hT : rawTotal v z f.spectralCentroid h ≠ 0) :
    ∃ t a e : ℤ, tensePct f = some t ∧ angryPct f = some a ∧ excitedPct f = some e ∧
      (calculateEmotion f d ts).conflictRisk =
        some (min 100 (jsRound ((t : ℚ) * (2/5) + (a : ℚ) * (3/5) + (e : ℚ) * (1/5)))) := by
  have h2 := tensePct_some f v z h hv hz hh hT
  have h3 := angryPct_some f v z h hv hz hh hT
  have h4 := excitedPct_some f v z h hv hz hh hT
  refine ⟨_, _, _, h2, h3, h4, ?_⟩
  have hrisk : (calculateEmotion f d ts).conflictRisk = riskScore f := rfl
  rw [hrisk, riskScore_some f _ _ _ h2 h3 h4, jsRound_min_hundred]

/-- C7, witness: on the concrete feature record the conflict risk equals
the claimed min-round combination of the normalized percentages. -/
theorem c7_witness :
    rawTotal 2 (3/4) exFeatures.spectralCentroid (1/2) ≠ 0 ∧
    (∃ t a e : ℤ, tensePct exFeatures = some t ∧ angryPct exFeatures = some a ∧
      excitedPct exFeatures = some e ∧
      (calculateEmotion exFeatures 1 "t").conflictRisk =
        some (min 100 (jsRound ((t : ℚ) * (2/5) + (a : ℚ) * (3/5) + (e : ℚ) * (1/5))))) := by
  have hT : rawTotal 2 (3/4) exFeatures.spectralCentroid (1/2) ≠ 0 := by
    norm_num [rawTotal, rawCalm, rawTense, rawAngry, rawExcited, exFeatures]
  exact ⟨hT, c7_conflict_risk_formula exFeatures 1 "t" 2 (3/4) (1/2) rfl rfl rfl hT⟩

/-- C8: the pipeline is a pure function of its inputs: extraction is
deterministic, and two runs of extract-then-score differing only in the
caller-supplied timestamp agree on every other field of the result. -/
theorem c8_determinism (sqrt : ℚ → ℚ) (w : WaveformInput) (ts1 ts2 : String) :
    extractAudioFeatures sqrt w = extractAudioFeatures sqrt w ∧
    (analyzePipeline sqrt w ts1).calm = (analyzePipeline sqrt w ts2).calm ∧
    (analyzePipeline sqrt w ts1).tense = (analyzePipeline sqrt w ts2).tense ∧
    (analyzePipeline sqrt w ts1).angry = (analyzePipeline sqrt w ts2).angry ∧
    (analyzePipeline sqrt w ts1).excited = (analyzePipeline sqrt w ts2).excited ∧
    (analyzePipeline sqrt w ts1).conflictRisk = (analyzePipeline sqrt w ts2).conflictRisk ∧
    (analyzePipeline sqrt w ts1).duration = (analyzePipeline sqrt w ts2).duration ∧
    (analyzePipeline sqrt w ts1).volume = (analyzePipeline sqrt w ts2).volume ∧
    (analyzePipeline sqrt w ts1).variability = (analyzePipeline sqrt w ts2).variability ∧
    (analyzePipeline sqrt w ts1).zeroCrossing = (analyzePipeline sqrt w ts2).zeroCrossing :=
  ⟨rfl, rfl, rfl, rfl, rfl, rfl, rfl, rfl, rfl, rfl⟩

/-- C9: for every feature record with defined, non-negative fields the
normalization total is defined and strictly positive; in particular when
the raw calm score is 0 the clamp forces rmsVariance*1000 + zcr*500 to
be at least 100, which forces the raw tense score to be at least 60. -/
theorem c9_normalization_total_positive (f : AudioFeatures) (v z h : ℚ)
    (hv : f.rmsVariance = some v) (hz : f.zcr = some z) (hh : f.highFreqRatio = some h)
    (h0v : 0 ≤ v) (h0z : 0 ≤ z) (h0c : 0 ≤ f.spectralCentroid) (h0h : 0 ≤ h) :
    (∃ T, totalScore f = some T ∧ 0 < T) ∧
    (rawCalm v z = 0 → 100 ≤ v * 1000 + z * 500 ∧ 60 ≤ rawTense v z) := by
  constructor
  · exact ⟨_, totalScore_some f v z h hv hz hh,
      rawTotal_pos v z f.spectralCentroid h h0v h0z h0c h0h⟩
  · intro hc
    unfold rawCalm at hc
    have hle : 100 - v * 1000 - z * 500 ≤ 0 := max_eq_left_iff.mp hc
    refine ⟨by linarith, le_min (by norm_num) (by linarith)⟩

/-- C9, witness: on the concrete feature record the normalization total
is defined and positive. -/
theorem c9_witness : ∃ T, totalScore exFeatures = some T ∧ 0 < T :=
  (c9_normalization_total_positive exFeatures 2 (3/4) (1/2) rfl rfl rfl (by norm_num)
    (by norm_num) (by norm_num [exFeatures]) (by norm_num)).1

/-- C10: on every non-empty analysis window the zero-crossing count is at
most the window length minus one, so the zcr produced by
extractAudioFeatures is strictly less than 1. -/
theorem c10_zcr_strictly_below_one (w : WaveformInput) (hne : analysisData w ≠ []) :
    zcrCount (analysisData w) ≤ (analysisData w).length - 1 ∧
    (∀ (sqrt : ℚ → ℚ) (z : ℚ), (extractAudioFeatures sqrt w).zcr = some z → z < 1) := by
  refine ⟨zcrCount_le _, ?_⟩
  intro sq z hz
  rw [extract_zcr] at hz
  obtain ⟨hn, hq⟩ := jsDiv_eq_some _ _ _ hz
  have hlen : 0 < (analysisData w).length := List.length_pos.mpr hne
  have hcount : zcrCount (analysisData w) < (analysisData w).length := by
    have h := zcrCount_le (analysisData w)
    omega
  have hlenQ : (0 : ℚ) < ((analysisData w).length : ℚ) := by exact_mod_cast hlen
  rw [hq, div_lt_one hlenQ]
  exact_mod_cast hcount

/-- C10, witness: the two-sample window [1, -1] is non-empty and its zcr
value 1/2 is strictly below 1. -/
theorem c10_witness : analysisData wPair ≠ [] ∧ (1 : ℚ)/2 < 1 := by
  have hd : analysisData wPair = [1, -1] := by
    norm_num [analysisData, windowSampleCount, wPair]
  have hne : analysisData wPair ≠ [] := by
    rw [hd]
    simp
  have hz : (extractAudioFeatures (fun x => x) wPair).zcr = some (1/2) := by
    rw [extract_zcr, hd]
    norm_num [zcrCount, jsDiv]
  exact ⟨hne, (c10_zcr_strictly_below_one wPair hne).2 (fun x => x) (1/2) hz⟩

end SpeechAnalysis
